import Mathlib

/-!
Verification development for the calories-tracker backend
(`src/index.ts`, `src/utils.ts`, `src/websocket_handler.ts`).

The TypeScript code is shallowly embedded: JS objects keyed by strings are
association lists in insertion order (mirroring `Object.keys` enumeration
order and object-spread update semantics); JS numbers are modelled by exact
decimal fractions, which agree with IEEE doubles on every value the
claims evaluate (small integers, where double arithmetic is exact);
fallible steps return `Except`/`Option`.
-/

namespace CaloriesTracker

/-- Food item as validated by `foodItemSchema` (`src/index.ts` import of
`./types`, shown in the revision embedded in `websocket_handler.ts`
lines 152-160): six required string fields plus an optional `mealType`. -/
structure FoodItem where
  name : String
  calories : String
  protein : String
  carbs : String
  fat : String
  amount : String
  mealType : Option String := none
deriving DecidableEq, Repr

/-- Summary as validated by `summarySchema`: four required string fields. -/
structure Summary where
  calories : String
  protein : String
  carbs : String
  fat : String
deriving DecidableEq, Repr

/-- One date-key record: `\x7bfoods, summary\x7d`. -/
structure DailyRecord where
  foods : List FoodItem
  summary : Summary
deriving DecidableEq, Repr

/-- The `AiResponse` type: a JS object mapping date strings to daily
records, modelled as an association list in key insertion order. -/
abbrev AiResponse := List (String × DailyRecord)

/-- Lookup `m[k]` on a JS object: the first entry with key `k`
(JS objects have unique keys; `JSON.parse` already collapses duplicates). -/
def getKey (m : AiResponse) (k : String) : Option DailyRecord :=
  (m.find? (fun p => p.1 == k)).map (fun p => p.2)

/-- Object-spread update `\x7b...m, [k]: v\x7d`: an existing key keeps its
position and gets the new value; a fresh key is appended at the end. -/
def setKey (m : AiResponse) (k : String) (v : DailyRecord) : AiResponse :=
  if m.any (fun p => p.1 == k) then
    m.map (fun p => if p.1 == k then (k, v) else p)
  else
    m ++ [(k, v)]

/-- Deletion `delete m[k]` on a JS object. -/
def removeKey (m : AiResponse) (k : String) : AiResponse :=
  m.filter (fun p => !(p.1 == k))

/-! Numeric-string model.

The handlers move numbers through `parseFloat` and back through
`Number.prototype.toString` / `toFixed(2)`.  The numeric domain is
modelled by exact decimal fractions `num / 10 ^ exp`, which agree with
IEEE doubles wherever the double arithmetic is exact (in particular on
all the integer-valued data the claims evaluate).  `parseDec` covers
plain decimal literals, the only shape the system itself produces; on
a non-numeric string JS would yield `NaN`, which no claim exercises,
and the model returns `0` there. -/

/-- Exact decimal number `num / 10 ^ exp` (the value of a JS number in
this pipeline). -/
structure Dec where
  num : Int
  exp : Nat
deriving DecidableEq, Repr

/-- Digits of a decimal string as a natural number; `none` when the
string is empty or holds a non-digit. -/
def natOfDigits? (cs : List Char) : Option Nat :=
  if cs.isEmpty then none
  else
    cs.foldl
      (fun acc c =>
        acc.bind (fun n => if c.isDigit then some (n * 10 + (c.toNat - 48)) else none))
      (some 0)

/-- Cancellation of trailing decimal zeros on a magnitude/exponent
pair (JS numbers carry no trailing-zero information). -/
def normDecNat (n : Nat) : Nat → Nat × Nat
  | 0 => (n, 0)
  | Nat.succ e2 =>
    if n % 10 = 0 then normDecNat (n / 10) e2 else (n, Nat.succ e2)

/-- Canonical decimal from an integer numerator and exponent. -/
def normDec (n : Int) (e : Nat) : Dec :=
  let r := normDecNat n.natAbs e
  ⟨if n < 0 then -(r.1 : Int) else (r.1 : Int), r.2⟩

/-- Addition of decimals (exact, like double addition on the small
values this system handles). -/
def addDec (a b : Dec) : Dec :=
  let e := max a.exp b.exp
  normDec (a.num * (10 : Int) ^ (e - a.exp) + b.num * (10 : Int) ^ (e - b.exp)) e

/-- Split a character list at every dot. -/
def splitDot : List Char → List (List Char)
  | [] => [[]]
  | '.' :: rest => [] :: splitDot rest
  | c :: rest =>
    match splitDot rest with
    | h :: t => (c :: h) :: t
    | [] => [[c]]

/-- Model of `parseFloat` on plain decimal literals (optional sign,
integer digits, optional fraction). -/
def parseDec (s : String) : Dec :=
  let signBody : Bool × List Char :=
    match s.toList with
    | '-' :: rest => (true, rest)
    | cs => (false, cs)
  let mag : Option Dec :=
    match splitDot signBody.2 with
    | [i] => (natOfDigits? i).map (fun n => normDec (n : Int) 0)
    | [i, f] =>
      match natOfDigits? i, natOfDigits? f with
      | some n, some m2 =>
        some (normDec ((n : Int) * (10 : Int) ^ f.length + (m2 : Int)) f.length)
      | some n, none => if f.isEmpty then some (normDec (n : Int) 0) else none
      | none, some m2 =>
        if i.isEmpty then some (normDec (m2 : Int) f.length) else none
      | none, none => none
    | _ => none
  match mag with
  | some v => if signBody.1 then ⟨-v.num, v.exp⟩ else v
  | none => ⟨0, 0⟩

/-- Left-pad the decimal rendering of `n` with zeros to width `k`. -/
def padLeftZeros (k : Nat) (n : Nat) : String :=
  let s := toString n
  String.mk (List.replicate (k - s.length) '0') ++ s

/-- Model of `Number.prototype.toString` on finite decimals: the
canonical form is rendered with the fewest decimal places that are
exact, matching JS wherever the double is exact. -/
def renderDec (a : Dec) : String :=
  let d := normDec a.num a.exp
  let x := d.num.natAbs
  let body :=
    if d.exp = 0 then toString x
    else toString (x / 10 ^ d.exp) ++ "." ++ padLeftZeros d.exp (x % 10 ^ d.exp)
  if d.num < 0 then "-" ++ body else body

/-- Model of `(p / q).toFixed(2)` for an exact ratio `p / q` with
`q > 0`: round to the nearest hundredth, ties picking the larger
candidate as the ECMA spec does, and render with exactly two
decimals. -/
def toFixed2Ratio (p q : Int) : String :=
  let n : Int := Int.fdiv (200 * p + q) (2 * q)
  let x := n.natAbs
  let body := toString (x / 100) ++ "." ++ padLeftZeros 2 (x % 100)
  if n < 0 then "-" ++ body else body

/-- Two-decimal formatting of a decimal value (`d.toFixed(2)`). -/
def toFixed2Dec (a : Dec) : String :=
  toFixed2Ratio a.num ((10 : Int) ^ a.exp)

/-- Two-decimal formatting of `a` divided by the positive count `n`
(`(a / n).toFixed(2)`). -/
def toFixed2Avg (a : Dec) (n : Nat) : String :=
  toFixed2Ratio a.num ((10 : Int) ^ a.exp * (n : Int))

/-- The `recalculatedSummary` reduce of the intake handler
(`src/index.ts` lines 312-320): fold over the foods, at each step
re-parsing the accumulator strings, adding the parsed food fields and
re-serializing. -/
def recalcSummary (foods : List FoodItem) : Summary :=
  foods.foldl
    (fun acc food =>
      { calories := renderDec (addDec (parseDec acc.calories) (parseDec food.calories))
        protein := renderDec (addDec (parseDec acc.protein) (parseDec food.protein))
        carbs := renderDec (addDec (parseDec acc.carbs) (parseDec food.carbs))
        fat := renderDec (addDec (parseDec acc.fat) (parseDec food.fat)) })
    ⟨"0", "0", "0", "0"⟩

/-! Record merger (`src/index.ts` lines 262-271). -/

/-- Six-field comparison used by `foodExists`: the props
`["name", "amount", "calories", "protein", "carbs", "fat"]` compared
with `===`; `mealType` is not compared. -/
def sameFood (existingFood newFood : FoodItem) : Bool :=
  existingFood.name == newFood.name &&
  existingFood.amount == newFood.amount &&
  existingFood.calories == newFood.calories &&
  existingFood.protein == newFood.protein &&
  existingFood.carbs == newFood.carbs &&
  existingFood.fat == newFood.fat

/-- The `foodExists` closure: `existingFoods.some (existingFood => ...)`. -/
def foodExists (existingFoods : List FoodItem) (newFood : FoodItem) : Bool :=
  existingFoods.any (fun existingFood => sameFood existingFood newFood)

/-- The merged foods array `[...existingFoods, ...newFoods]` where
`newFoods = intakeData.foods.filter (food => !foodExists food)`. -/
def mergeFoods (existingFoods incomingFoods : List FoodItem) : List FoodItem :=
  existingFoods ++ incomingFoods.filter (fun food => !(foodExists existingFoods food))

/-- Store-level merge of one validated date-key into a parsed existing
ledger (`src/index.ts` lines 256-297): when the date exists, write the
deduplicated union of foods together with the incoming `summary`; when
it does not, insert the incoming record unchanged. -/
def mergeIntake (m : AiResponse) (intakeDate : String) (intakeData : DailyRecord) : AiResponse :=
  match getKey m intakeDate with
  | some existingRec =>
      setKey m intakeDate ⟨mergeFoods existingRec.foods intakeData.foods, intakeData.summary⟩
  | none => setKey m intakeDate intakeData

/-- A value stored under the user key: either a JSON blob that parses to
a ledger, or bytes on which `JSON.parse` throws. -/
inductive Blob
  | corrupt
  | valid (m : AiResponse)
deriving DecidableEq, Repr

/-- Store-and-response effect of the `POST /intake` handler after schema
validation (`src/index.ts` lines 241-322).  `existing` is the user entry
read from KV.  The first component is the user entry after the handler
ran, the second the HTTP outcome: `Except.ok` carries `parsedResponse`
as returned by `c.json` (foods merged, summary recalculated), while an
empty validated object makes `parsedResponse[intakeDate]` the JS value
`undefined`, so the summary recalculation throws after the store write
(the thrown error is re-raised as a parse failure, lines 323-335).
When the existing blob is corrupt, the catch at lines 299-304 overwrites
it with the new fragment. -/
def intakeHandler (existing : Option Blob) (resp : AiResponse) :
    Option Blob × Except String AiResponse :=
  let intakeDate : String :=
    match resp.head? with
    | some p => p.1
    | none => "undefined"
  match getKey resp intakeDate with
  | none =>
    let store :=
      match existing with
      | some (Blob.valid m) =>
        match getKey m intakeDate with
        | some _ => some (Blob.valid resp)
        | none => some (Blob.valid m)
      | some Blob.corrupt => some (Blob.valid resp)
      | none => some (Blob.valid resp)
    (store, Except.error "TypeError: cannot read foods of undefined")
  | some intakeData =>
    let store :=
      match existing with
      | some (Blob.valid m) => some (Blob.valid (mergeIntake m intakeDate intakeData))
      | some Blob.corrupt => some (Blob.valid resp)
      | none => some (Blob.valid resp)
    let mergedFoods :=
      match existing with
      | some (Blob.valid m) =>
        match getKey m intakeDate with
        | some existingRec => mergeFoods existingRec.foods intakeData.foods
        | none => intakeData.foods
      | _ => intakeData.foods
    (store, Except.ok (setKey resp intakeDate ⟨mergedFoods, recalcSummary mergedFoods⟩))

/-- Outcome of the `DELETE /intake/:userName/:date` handler. -/
inductive DeleteOutcome
  | notFoundUser
  | notFoundDate
  | success
  | serverError
deriving DecidableEq, Repr

/-- Store-and-response effect of the delete handler (`src/index.ts`
lines 517-553): missing user entry or missing date answer 404 without
writing; otherwise the date-key is deleted and the remaining object is
written back, or the whole user entry is deleted when nothing remains;
a corrupt blob makes `JSON.parse` throw into the catch (500). -/
def deleteIntake (existing : Option Blob) (date : String) : Option Blob × DeleteOutcome :=
  match existing with
  | none => (none, DeleteOutcome.notFoundUser)
  | some Blob.corrupt => (some Blob.corrupt, DeleteOutcome.serverError)
  | some (Blob.valid m) =>
    match getKey m date with
    | none => (some (Blob.valid m), DeleteOutcome.notFoundDate)
    | some _ =>
      let m2 := removeKey m date
      if m2.length > 0 then (some (Blob.valid m2), DeleteOutcome.success)
      else (none, DeleteOutcome.success)

/-! Response extractor (`src/index.ts` lines 194-236).

The handler first tries `JSON.parse` on the whole completion, then the
first fenced code block, then the greedy first-brace-to-last-brace span.
`JSON.parse` success is modelled by a fuel-indexed recursive-descent
validity checker for the JSON grammar. -/

/-- JSON whitespace (`space`, `tab`, `newline`, `carriage return`). -/
def isJsonWs (c : Char) : Bool :=
  c = ' ' || c = '\t' || c = '\n' || c = '\r'

/-- Skip leading JSON whitespace. -/
def skipWs (cs : List Char) : List Char :=
  cs.dropWhile isJsonWs

/-- Hexadecimal digit test for `\u` escapes. -/
def isHexDigit (c : Char) : Bool :=
  c.isDigit || ('a' ≤ c && c ≤ 'f') || ('A' ≤ c && c ≤ 'F')

/-- Consume the remainder of a JSON string after the opening quote,
returning the input after the closing quote. -/
def jstrRest : List Char → Option (List Char)
  | [] => none
  | '"' :: rest => some rest
  | '\\' :: 'u' :: a :: b :: c :: d :: rest =>
      if isHexDigit a && isHexDigit b && isHexDigit c && isHexDigit d then
        jstrRest rest
      else none
  | '\\' :: c :: rest =>
      if c = '"' || c = '\\' || c = '/' || c = 'b' || c = 'f' ||
         c = 'n' || c = 'r' || c = 't' then
        jstrRest rest
      else none
  | c :: rest => if c.toNat < 32 then none else jstrRest rest

/-- Consume an optional exponent part of a JSON number. -/
def jnumExpPart : List Char → Option (List Char)
  | [] => some []
  | c :: rest =>
    if c = 'e' || c = 'E' then
      let rest2 :=
        match rest with
        | s :: r => if s = '+' || s = '-' then r else s :: r
        | [] => []
      match rest2 with
      | d :: r => if d.isDigit then some (r.dropWhile Char.isDigit) else none
      | [] => none
    else some (c :: rest)

/-- Consume an optional fraction part of a JSON number. -/
def jnumFracPart : List Char → Option (List Char)
  | '.' :: rest =>
    (match rest with
     | d :: r => if d.isDigit then some (r.dropWhile Char.isDigit) else none
     | [] => none)
  | cs => some cs

/-- Consume a JSON number (strict grammar: no leading zeros, no bare
dot, no leading plus). -/
def jnumRest (cs : List Char) : Option (List Char) :=
  let cs1 :=
    match cs with
    | '-' :: r => r
    | _ => cs
  match cs1 with
  | '0' :: r => (jnumFracPart r).bind jnumExpPart
  | c :: r =>
    if c.isDigit then (jnumFracPart (r.dropWhile Char.isDigit)).bind jnumExpPart
    else none
  | [] => none

mutual

/-- Consume one JSON value, returning the remaining input. -/
def jval : Nat → List Char → Option (List Char)
  | 0, _ => none
  | Nat.succ fuel, cs =>
    match skipWs cs with
    | 'n' :: 'u' :: 'l' :: 'l' :: rest => some rest
    | 't' :: 'r' :: 'u' :: 'e' :: rest => some rest
    | 'f' :: 'a' :: 'l' :: 's' :: 'e' :: rest => some rest
    | '"' :: rest => jstrRest rest
    | '[' :: rest => jarr fuel rest
    | '\x7b' :: rest => jobj fuel rest
    | cs2 => jnumRest cs2

/-- Consume the remainder of a JSON array after `[`. -/
def jarr : Nat → List Char → Option (List Char)
  | 0, _ => none
  | Nat.succ fuel, cs =>
    match skipWs cs with
    | ']' :: rest => some rest
    | cs2 => (jval fuel cs2).bind (jarrTail fuel)

/-- Consume array continuations: `,` then a value, or the closing `]`. -/
def jarrTail : Nat → List Char → Option (List Char)
  | 0, _ => none
  | Nat.succ fuel, cs =>
    match skipWs cs with
    | ']' :: rest => some rest
    | ',' :: rest => (jval fuel rest).bind (jarrTail fuel)
    | _ => none

/-- Consume the remainder of a JSON object after the opening brace. -/
def jobj : Nat → List Char → Option (List Char)
  | 0, _ => none
  | Nat.succ fuel, cs =>
    match skipWs cs with
    | '\x7d' :: rest => some rest
    | '"' :: rest => (jstrRest rest).bind (jmember fuel)
    | _ => none

/-- Consume `: value` after an object key, then the object tail. -/
def jmember : Nat → List Char → Option (List Char)
  | 0, _ => none
  | Nat.succ fuel, cs =>
    match skipWs cs with
    | ':' :: rest => (jval fuel rest).bind (jobjTail fuel)
    | _ => none

/-- Consume object continuations: `,` then a member, or the closing brace. -/
def jobjTail : Nat → List Char → Option (List Char)
  | 0, _ => none
  | Nat.succ fuel, cs =>
    match skipWs cs with
    | '\x7d' :: rest => some rest
    | ',' :: rest =>
      (match skipWs rest with
       | '"' :: rest2 => (jstrRest rest2).bind (jmember fuel)
       | _ => none)
    | _ => none

end

/-- Success test for `JSON.parse(s)`: a single JSON value surrounded by
optional whitespace.  The fuel bound exceeds any possible nesting. -/
def jsonWellFormed (s : String) : Bool :=
  match jval (3 * s.length + 8) s.toList with
  | some rest => (skipWs rest).isEmpty
  | none => false

/-- Whitespace in the sense of the JS `\s` class and `trim` (the ASCII
part, all this system meets). -/
def jsWs (c : Char) : Bool :=
  c = ' ' || c = '\t' || c = '\n' || c = '\r' || c = '\x0b' || c = '\x0c'

/-- Model of `String.prototype.trim`. -/
def trimStr (s : String) : String :=
  String.mk (((s.toList.dropWhile jsWs).reverse.dropWhile jsWs).reverse)

/-- Model of `String.prototype.endsWith`. -/
def strEndsWith (s suffix : String) : Bool :=
  let cs := s.toList
  let ps := suffix.toList
  decide (cs.drop (cs.length - ps.length) = ps) && decide (ps.length ≤ cs.length)

/-- Split a character list at every triple-backtick fence
(`\x60\x60\x60`), left to right, non-overlapping. -/
def splitFence : List Char → List (List Char)
  | '\x60' :: '\x60' :: '\x60' :: rest => [] :: splitFence rest
  | c :: rest =>
    (match splitFence rest with
     | h :: t => (c :: h) :: t
     | [] => [[c]])
  | [] => [[]]

/-- Strip a leading `json` language tag, as the
regex fragment matching an optional literal tag does. -/
def stripJsonTag (s : String) : String :=
  match s.toList with
  | 'j' :: 's' :: 'o' :: 'n' :: rest => String.mk rest
  | _ => s

/-- Content of the first fenced code block, as matched by the handler
regex on triple-backtick fences with an optional `json` tag: the text
between the first fence and the next one, tag stripped, then `.trim()`
(which also covers the optional newline parts of the regex). -/
def codeBlockInner (text : String) : Option String :=
  match splitFence text.toList with
  | _ :: p1 :: _ :: _ => some (trimStr (stripJsonTag (String.mk p1)))
  | _ => none

/-- Greedy brace span regex: the substring from the first opening brace
through the last closing brace, when the latter comes after the former. -/
def braceSpan (text : String) : Option String :=
  let cs := text.toList
  match cs.findIdx? (fun c => c = '\x7b') with
  | none => none
  | some i =>
    match cs.reverse.findIdx? (fun c => c = '\x7d') with
    | none => none
    | some jr =>
      let j := cs.length - 1 - jr
      if i < j then some (String.mk ((cs.drop i).take (j - i + 1))) else none

/-- Parsing stage recorded by the extraction code. -/
inductive Stage
  | fullResponse
  | codeBlock
  | jsonExtracted
deriving DecidableEq, Repr

/-- Extraction cascade of the intake handler (`src/index.ts` lines
194-232): whole text if it parses, else the first fenced block if its
inner content parses, else the unverified brace span; `none` is the
`No valid JSON object found` error. -/
def extractJson (text : String) : Option (String × Stage) :=
  if jsonWellFormed text then some (text, Stage.fullResponse)
  else
    let fromBlock : Option String :=
      match codeBlockInner text with
      | some inner => if jsonWellFormed inner then some inner else none
      | none => none
    match fromBlock with
    | some inner => some (inner, Stage.codeBlock)
    | none =>
      match braceSpan text with
      | some s => some (s, Stage.jsonExtracted)
      | none => none

/-! Schema validator (`aiResponseSchema` and friends, shown in the
revision embedded in `websocket_handler.ts` lines 152-175):
`z.record(z.string(), z.object(\x7bfoods: z.array(foodItemSchema),
summary: summarySchema\x7d))`.  Parsed JSON values are embedded as the
inductive `Json`; `zod` record validation places no lower bound on the
number of keys, strips unknown object fields and fails on missing or
non-string required fields. -/

/-- Parsed JSON value. -/
inductive Json
  | null
  | bool (b : Bool)
  | num (n : Int)
  | str (s : String)
  | arr (elems : List Json)
  | obj (fields : List (String × Json))

/-- Field lookup on a parsed JSON object. -/
def jGet (fields : List (String × Json)) (k : String) : Option Json :=
  (fields.find? (fun p => p.1 == k)).map (fun p => p.2)

/-- Validation of a required `z.string()` field. -/
def reqString (fields : List (String × Json)) (k : String) : Except String String :=
  match jGet fields k with
  | some (Json.str s) => Except.ok s
  | some _ => Except.error (k ++ ": expected string")
  | none => Except.error (k ++ ": required")

/-- Validation of a `z.string().optional()` field. -/
def optString (fields : List (String × Json)) (k : String) : Except String (Option String) :=
  match jGet fields k with
  | some (Json.str s) => Except.ok (some s)
  | some _ => Except.error (k ++ ": expected string")
  | none => Except.ok none

/-- Validation against `foodItemSchema`. -/
def parseFoodItem : Json → Except String FoodItem
  | Json.obj fs => do
    let name ← reqString fs "name"
    let calories ← reqString fs "calories"
    let protein ← reqString fs "protein"
    let carbs ← reqString fs "carbs"
    let fat ← reqString fs "fat"
    let amount ← reqString fs "amount"
    let mealType ← optString fs "mealType"
    Except.ok ⟨name, calories, protein, carbs, fat, amount, mealType⟩
  | _ => Except.error "food: expected object"

/-- Validation against `summarySchema`. -/
def parseSummary : Json → Except String Summary
  | Json.obj fs => do
    let calories ← reqString fs "calories"
    let protein ← reqString fs "protein"
    let carbs ← reqString fs "carbs"
    let fat ← reqString fs "fat"
    Except.ok ⟨calories, protein, carbs, fat⟩
  | _ => Except.error "summary: expected object"

/-- Validation of one date-key value against
`z.object(\x7bfoods, summary\x7d)`. -/
def parseDaily : Json → Except String DailyRecord
  | Json.obj fs => do
    let foodsJ ←
      match jGet fs "foods" with
      | some (Json.arr xs) => Except.ok xs
      | some _ => Except.error "foods: expected array"
      | none => Except.error "foods: required"
    let foods ← foodsJ.mapM parseFoodItem
    let summary ←
      match jGet fs "summary" with
      | some j => parseSummary j
      | none => Except.error "summary: required"
    Except.ok ⟨foods, summary⟩
  | _ => Except.error "day: expected object"

/-- Validation against `aiResponseSchema` (`z.record`): every key of the
object is validated; an object with no keys validates to the empty
record. -/
def aiResponseSchemaParse : Json → Except String AiResponse
  | Json.obj fs => fs.mapM (fun p => (parseDaily p.2).map (fun d => (p.1, d)))
  | _ => Except.error "expected object"

/-! Date parsing.

The handlers build `Date` values from the stored ISO keys
(`toISOString` format `YYYY-MM-DDTHH:mm:ss.sssZ`, the only shape the
system writes) and read UTC fields from them.  `parseIso` models that
field extraction; any string outside the format maps to `none`, exactly
as an invalid `Date` makes every UTC-field comparison false. -/

/-- Leap year test of the Gregorian calendar. -/
def isLeap (y : Nat) : Bool :=
  y % 4 = 0 && (y % 100 ≠ 0 || y % 400 = 0)

/-- Days in a month. -/
def daysInMonth (y m : Nat) : Nat :=
  if m = 2 then (if isLeap y then 29 else 28)
  else if m = 4 || m = 6 || m = 9 || m = 11 then 30
  else 31

/-- Numeric value of two decimal digit characters. -/
def twoDigits (a b : Char) : Nat :=
  (a.toNat - 48) * 10 + (b.toNat - 48)

/-- UTC fields (year, month 1-12, day, hour) of an ISO-8601
`YYYY-MM-DDTHH:mm:ss.sssZ` timestamp; `none` when the string is not a
valid timestamp of that shape. -/
def parseIso (s : String) : Option (Nat × Nat × Nat × Nat) :=
  match s.toList with
  | [y1, y2, y3, y4, '-', m1, m2, '-', d1, d2, 'T',
     h1, h2, ':', n1, n2, ':', s1, s2, '.', f1, f2, f3, 'Z'] =>
    if [y1, y2, y3, y4, m1, m2, d1, d2, h1, h2, n1, n2, s1, s2, f1, f2, f3].all Char.isDigit then
      let y := twoDigits y1 y2 * 100 + twoDigits y3 y4
      let mo := twoDigits m1 m2
      let da := twoDigits d1 d2
      let ho := twoDigits h1 h2
      let mi := twoDigits n1 n2
      let se := twoDigits s1 s2
      if 1 ≤ mo && mo ≤ 12 && 1 ≤ da && da ≤ daysInMonth y mo &&
         ho ≤ 23 && mi ≤ 59 && se ≤ 59 then
        some (y, mo, da, ho)
      else none
    else none
  | _ => none

/-- Day of week (0 = Sunday .. 6 = Saturday) of a Gregorian date,
computed by the Sakamoto congruence.  This models both `Date.getDay`
and the weekday used by `toLocaleDateString` (the worker runtime clock
is UTC). -/
def dayOfWeek (y m d : Nat) : Nat :=
  let t := [0, 3, 2, 5, 0, 3, 5, 1, 4, 6, 2, 4]
  let y2 := if m < 3 then y - 1 else y
  (y2 + y2 / 4 - y2 / 100 + y2 / 400 + t.getD (m - 1) 0 + d) % 7

/-- English weekday names used by `toLocaleDateString("en-US",
weekday: long)`. -/
def weekdayName : Nat → String
  | 0 => "Sunday"
  | 1 => "Monday"
  | 2 => "Tuesday"
  | 3 => "Wednesday"
  | 4 => "Thursday"
  | 5 => "Friday"
  | _ => "Saturday"

/-- Hour-to-label chain of `getMealType` (`src/utils.ts` lines 18-28). -/
def mealLabel (hour : Nat) : String :=
  if 5 ≤ hour && hour < 11 then "Breakfast"
  else if 11 ≤ hour && hour < 14 then "Lunch"
  else if 14 ≤ hour && hour < 17 then "Snack"
  else if 17 ≤ hour && hour < 21 then "Dinner"
  else "Late Night Snack"

/-- The `getMealType` function (`src/utils.ts` lines 7-29): a literal
`T00:00:00.000Z` suffix yields the weekday label; otherwise the UTC
hour is shifted to Malaysia time (UTC+8) and classified.  A string
outside the modelled ISO shape gives an invalid `Date`: its `NaN` hour
fails every comparison, landing in the final else branch, and its
weekday prints as `Invalid Date`. -/
def getMealType (time : String) : String :=
  if strEndsWith time "T00:00:00.000Z" then
    match parseIso time with
    | some (y, mo, da, _) => "On " ++ weekdayName (dayOfWeek y mo da)
    | none => "On Invalid Date"
  else
    match parseIso time with
    | some (_, _, _, h) => mealLabel ((h + 8) % 24)
    | none => "Late Night Snack"

/-- Meal classification written from the claim text: hours `[5,11)`
map to Breakfast, `[11,14)` to Lunch, `[14,17)` to Snack, `[17,21)` to
Dinner and every other hour to Late Night Snack (specification-side
definition, to be compared with the code-side `mealLabel`). -/
def mealTypeSpecLabel (localHour : Nat) : String :=
  if 5 ≤ localHour ∧ localHour < 11 then "Breakfast"
  else if 11 ≤ localHour ∧ localHour < 14 then "Lunch"
  else if 14 ≤ localHour ∧ localHour < 17 then "Snack"
  else if 17 ≤ localHour ∧ localHour < 21 then "Dinner"
  else "Late Night Snack"

/-! Monthly aggregate (`GET /summary/:userName`, `src/index.ts` lines
346-423).  The target year and month (the handler takes them from the
current UTC date) are parameters; a date-key is selected when its UTC
year and month match. -/

/-- Per-field numeric totals. -/
structure QSummary where
  calories : Dec
  protein : Dec
  carbs : Dec
  fat : Dec
deriving DecidableEq, Repr

/-- The daily summary reduce of the summary handler (lines 371-379):
numeric accumulator starting from zero. -/
def dailySummaryQ (foods : List FoodItem) : QSummary :=
  foods.foldl
    (fun acc f =>
      ⟨addDec acc.calories (parseDec f.calories), addDec acc.protein (parseDec f.protein),
       addDec acc.carbs (parseDec f.carbs), addDec acc.fat (parseDec f.fat)⟩)
    ⟨⟨0, 0⟩, ⟨0, 0⟩, ⟨0, 0⟩, ⟨0, 0⟩⟩

/-- Month membership test of a date-key (`getUTCFullYear` /
`getUTCMonth` comparisons; the month parameter is 1-based where
`getUTCMonth` is 0-based, applied consistently to both sides). -/
def inMonth (y m : Nat) (dateKey : String) : Bool :=
  match parseIso dateKey with
  | some (y2, m2, _, _) => y2 == y && m2 == m
  | none => false

/-- The selection loop of the summary handler: overall totals and the
count of selected days. -/
def monthlyAccum (ledger : AiResponse) (y m : Nat) : QSummary × Nat :=
  ledger.foldl
    (fun st p =>
      if inMonth y m p.1 then
        let ds := dailySummaryQ p.2.foods
        (⟨addDec st.1.calories ds.calories, addDec st.1.protein ds.protein,
          addDec st.1.carbs ds.carbs, addDec st.1.fat ds.fat⟩, st.2 + 1)
      else st)
    (⟨⟨0, 0⟩, ⟨0, 0⟩, ⟨0, 0⟩, ⟨0, 0⟩⟩, 0)

/-- The `averageSummary` object (lines 391-396): each field divides the
total by the day count and formats to two decimals when the count is
positive, and is the literal string `"0"` otherwise. -/
def averageSummary (ledger : AiResponse) (y m : Nat) : Summary :=
  let st := monthlyAccum ledger y m
  let n := st.2
  ⟨if n > 0 then toFixed2Avg st.1.calories n else "0",
   if n > 0 then toFixed2Avg st.1.protein n else "0",
   if n > 0 then toFixed2Avg st.1.carbs n else "0",
   if n > 0 then toFixed2Avg st.1.fat n else "0"⟩

/-- Decision whether the fenced-block candidate exists and parses
(step 2 of the cascade succeeds). -/
def codeBlockParses (text : String) : Bool :=
  match codeBlockInner text with
  | some inner => jsonWellFormed inner
  | none => false

/-! Concrete data used by the closed instances below. -/

/-- Sample food item. -/
def foodNasi : FoodItem := ⟨"Nasi Lemak", "100", "5", "20", "10", "1 plate", none⟩

/-- Sample food item. -/
def foodTeh : FoodItem := ⟨"Teh Tarik", "50", "2", "10", "5", "1 cup", none⟩

/-- Sample food item. -/
def foodRoti : FoodItem := ⟨"Roti Canai", "300", "6", "40", "12", "1 piece", none⟩

/-- Sample date-key (May 2024). -/
def dkMay : String := "2024-05-01T12:00:00.000Z"

/-- Ledger holding one record under `dkMay`. -/
def c1Ledger : AiResponse := [(dkMay, ⟨[foodNasi], ⟨"100", "5", "20", "10"⟩⟩)]

/-- Incoming record whose own summary matches its own foods. -/
def c1Incoming : DailyRecord := ⟨[foodTeh], ⟨"50", "2", "10", "5"⟩⟩

/-- Validated single-key fragment. -/
def c6Fragment : AiResponse := [(dkMay, ⟨[foodTeh], ⟨"50", "2", "10", "5"⟩⟩)]

/-- Two-key ledger for the delete instance. -/
def c8Ledger : AiResponse :=
  [(dkMay, ⟨[foodNasi], ⟨"100", "5", "20", "10"⟩⟩),
   ("2024-05-02T09:00:00.000Z", ⟨[foodTeh], ⟨"50", "2", "10", "5"⟩⟩)]

/-- First date-key of the two-key fragment. -/
def c10dA : String := "2024-05-03T08:00:00.000Z"

/-- Second date-key of the two-key fragment. -/
def c10dB : String := "2024-05-04T08:00:00.000Z"

/-- Record under the first key. -/
def c10rA : DailyRecord := ⟨[foodNasi], ⟨"100", "5", "20", "10"⟩⟩

/-- Record under the second key. -/
def c10rB : DailyRecord := ⟨[foodRoti], ⟨"300", "6", "40", "12"⟩⟩

/-- Validated fragment holding two date-keys. -/
def c10resp : AiResponse := [(c10dA, c10rA), (c10dB, c10rB)]

/-- What the handler returns for `c10resp` with no existing ledger. -/
def c10respOut : AiResponse :=
  [(c10dA, ⟨[foodNasi], recalcSummary [foodNasi]⟩), (c10dB, c10rB)]

/-! Association-list lemmas for the JS object model. -/

theorem find?_map_set (m : AiResponse) (k : String) (v : DailyRecord)
    (h : m.any (fun p => p.1 == k) = true) :
    (m.map (fun p => if p.1 == k then (k, v) else p)).find? (fun p => p.1 == k)
      = some (k, v) := by
  induction m with
  | nil => simp at h
  | cons a t ih =>
    by_cases ha : (a.1 == k) = true
    · simp only [List.map_cons, if_pos ha]
      rw [List.find?_cons_of_pos (p := fun (q : String × DailyRecord) => q.1 == k) _ (by simp)]
    · have ht : t.any (fun p => p.1 == k) = true := by
        simpa [List.any_cons, ha] using h
      have ha2 : ¬ ((a.1 == k) = true) := ha
      simp only [List.map_cons, if_neg ha2]
      rw [List.find?_cons_of_neg (p := fun (q : String × DailyRecord) => q.1 == k) _ (by simpa using ha2)]
      exact ih ht

theorem find?_append_missing (m : AiResponse) (k : String) (v : DailyRecord)
    (h : m.any (fun p => p.1 == k) = false) :
    (m ++ [(k, v)]).find? (fun p => p.1 == k) = some (k, v) := by
  rw [List.find?_append]
  have h1 : m.find? (fun p => p.1 == k) = none := by
    rw [List.find?_eq_none]
    intro x hx
    rw [List.any_eq_false] at h
    exact h x hx
  rw [h1]
  simp [List.find?_cons_of_pos]

theorem getKey_setKey_self (m : AiResponse) (k : String) (v : DailyRecord) :
    getKey (setKey m k v) k = some v := by
  unfold getKey setKey
  by_cases h : m.any (fun p => p.1 == k) = true
  · rw [if_pos h, find?_map_set m k v h]
    rfl
  · rw [if_neg h, find?_append_missing m k v (Bool.eq_false_iff.mpr h)]
    rfl

theorem find?_map_set_ne (m : AiResponse) (k : String) (v : DailyRecord) (k2 : String)
    (hk : k2 ≠ k) :
    (m.map (fun p => if p.1 == k then (k, v) else p)).find? (fun p => p.1 == k2)
      = m.find? (fun p => p.1 == k2) := by
  induction m with
  | nil => rfl
  | cons a t ih =>
    by_cases ha : (a.1 == k) = true
    · have ha' : a.1 = k := eq_of_beq ha
      have h1 : ((k, v).1 == k2) = false := by
        simp only [beq_eq_false_iff_ne, ne_eq]
        exact fun hkk => hk (hkk.symm)
      have h2 : (a.1 == k2) = false := by rw [ha']; exact h1
      simp only [List.map_cons, if_pos ha]
      rw [List.find?_cons_of_neg (p := fun (q : String × DailyRecord) => q.1 == k2) _ (by simpa using h1),
          List.find?_cons_of_neg (p := fun (q : String × DailyRecord) => q.1 == k2) _ (by simpa using h2)]
      exact ih
    · simp only [List.map_cons, if_neg ha]
      by_cases hb : (a.1 == k2) = true
      · rw [List.find?_cons_of_pos (p := fun (q : String × DailyRecord) => q.1 == k2) _ hb,
            List.find?_cons_of_pos (p := fun (q : String × DailyRecord) => q.1 == k2) _ hb]
      · rw [List.find?_cons_of_neg (p := fun (q : String × DailyRecord) => q.1 == k2) _ (by simpa using hb),
            List.find?_cons_of_neg (p := fun (q : String × DailyRecord) => q.1 == k2) _ (by simpa using hb)]
        exact ih

theorem getKey_setKey_ne (m : AiResponse) (k : String) (v : DailyRecord) (k2 : String)
    (hk : k2 ≠ k) :
    getKey (setKey m k v) k2 = getKey m k2 := by
  unfold getKey setKey
  by_cases h : m.any (fun p => p.1 == k) = true
  · rw [if_pos h, find?_map_set_ne m k v k2 hk]
  · rw [if_neg h, List.find?_append]
    have h1 : ([(k, v)].find? (fun p => p.1 == k2)) = none := by
      rw [List.find?_eq_none]
      intro x hx
      simp only [List.mem_singleton] at hx
      subst hx
      simp only [beq_eq_false_iff_ne.mpr (fun hkk => hk hkk.symm)]
      exact Bool.false_ne_true
    rw [h1, Option.or_none]

theorem getKey_removeKey_self (m : AiResponse) (k : String) :
    getKey (removeKey m k) k = none := by
  unfold getKey removeKey
  have h1 : (m.filter (fun p => !(p.1 == k))).find? (fun p => p.1 == k) = none := by
    rw [List.find?_eq_none]
    intro x hx
    rw [List.mem_filter] at hx
    simpa using hx.2
  rw [h1]
  rfl

theorem getKey_removeKey_ne (m : AiResponse) (k k2 : String) (hk : k2 ≠ k) :
    getKey (removeKey m k) k2 = getKey m k2 := by
  unfold getKey removeKey
  induction m with
  | nil => rfl
  | cons a t ih =>
    by_cases ha : (a.1 == k) = true
    · have ha' : a.1 = k := eq_of_beq ha
      have h2 : (a.1 == k2) = false := by
        rw [ha']
        exact beq_eq_false_iff_ne.mpr (fun hkk => hk hkk.symm)
      rw [List.filter_cons_of_neg (by simpa using ha)]
      rw [List.find?_cons_of_neg (p := fun (q : String × DailyRecord) => q.1 == k2) _ (by simpa using h2)]
      exact ih
    · rw [List.filter_cons_of_pos (by simpa using ha)]
      by_cases hb : (a.1 == k2) = true
      · rw [List.find?_cons_of_pos (p := fun (q : String × DailyRecord) => q.1 == k2) _ hb,
            List.find?_cons_of_pos (p := fun (q : String × DailyRecord) => q.1 == k2) _ hb]
      · rw [List.find?_cons_of_neg (p := fun (q : String × DailyRecord) => q.1 == k2) _ (by simpa using hb),
            List.find?_cons_of_neg (p := fun (q : String × DailyRecord) => q.1 == k2) _ (by simpa using hb)]
        exact ih

/-! Merge lemmas. -/

theorem sameFood_refl (f : FoodItem) : sameFood f f = true := by
  simp [sameFood]

theorem foodExists_of_mem {F : List FoodItem} {f : FoodItem} (h : f ∈ F) :
    foodExists F f = true := by
  unfold foodExists
  rw [List.any_eq_true]
  exact ⟨f, h, sameFood_refl f⟩

theorem foodExists_append (A B : List FoodItem) (f : FoodItem) :
    foodExists (A ++ B) f = (foodExists A f || foodExists B f) := by
  unfold foodExists
  exact List.any_append

theorem mergeFoods_idem (E N : List FoodItem) :
    mergeFoods (mergeFoods E N) N = mergeFoods E N := by
  unfold mergeFoods
  have h0 :
      N.filter
          (fun food =>
            !(foodExists (E ++ N.filter (fun g => !(foodExists E g))) food)) = [] := by
    rw [List.filter_eq_nil_iff]
    intro f hf
    suffices hex : foodExists (E ++ N.filter (fun g => !(foodExists E g))) f = true by
      simp [hex]
    rw [foodExists_append]
    by_cases hE : foodExists E f = true
    · rw [hE]; rfl
    · have hmem : f ∈ N.filter (fun g => !(foodExists E g)) := by
        rw [List.mem_filter]
        exact ⟨hf, by simp [Bool.eq_false_iff.mpr hE]⟩
      rw [foodExists_of_mem hmem]
      simp
  rw [h0, List.append_nil]

theorem mergeFoods_nil (N : List FoodItem) : mergeFoods [] N = N := by
  unfold mergeFoods foodExists
  simp

theorem mergeFoods_self (N : List FoodItem) : mergeFoods N N = N := by
  have h := mergeFoods_idem [] N
  rwa [mergeFoods_nil] at h

theorem monthlyAccum_no_match (ledger : AiResponse) (y m : Nat)
    (h : ∀ p ∈ ledger, inMonth y m p.1 = false) :
    monthlyAccum ledger y m = (⟨⟨0, 0⟩, ⟨0, 0⟩, ⟨0, 0⟩, ⟨0, 0⟩⟩, 0) := by
  unfold monthlyAccum
  have haux :
      ∀ (l : AiResponse) (init : QSummary × Nat), (∀ p ∈ l, inMonth y m p.1 = false) →
        l.foldl
          (fun st p =>
            if inMonth y m p.1 then
              let ds := dailySummaryQ p.2.foods
              (⟨addDec st.1.calories ds.calories, addDec st.1.protein ds.protein,
                addDec st.1.carbs ds.carbs, addDec st.1.fat ds.fat⟩, st.2 + 1)
            else st)
          init = init := by
    intro l
    induction l with
    | nil => intro init _; rfl
    | cons a t ih =>
      intro init hl
      have ha := hl a (List.mem_cons_self a t)
      rw [List.foldl_cons, if_neg (by simp [ha])]
      exact ih init (fun p hp => hl p (List.mem_cons_of_mem a hp))
  exact haux ledger _ h

theorem mealLabel_eq_spec (n : Nat) : mealLabel n = mealTypeSpecLabel n := by
  unfold mealLabel mealTypeSpecLabel
  simp only [Bool.and_eq_true, decide_eq_true_eq]

/-- Claim C4: for existing foods `E` and incoming foods `N`, the merged
list is `E` followed by exactly those elements of `N` that match no
element of `E` on the six-field tuple, with the relative order of `E`
and of the surviving incoming foods preserved. -/
theorem c4_merge_union_order (E N : List FoodItem) :
    (mergeFoods E N).take E.length = E ∧
    ((mergeFoods E N).drop E.length).Sublist N ∧
    (∀ f, f ∈ (mergeFoods E N).drop E.length ↔
        (f ∈ N ∧ ∀ e ∈ E, sameFood e f = false)) := by
  unfold mergeFoods
  refine ⟨?_, ?_, ?_⟩
  · rw [List.take_left]
  · rw [List.drop_left]
    exact List.filter_sublist N
  · intro f
    rw [List.drop_left, List.mem_filter]
    constructor
    · rintro ⟨hN, hp⟩
      refine ⟨hN, fun e he => ?_⟩
      rw [Bool.not_eq_eq_eq_not, Bool.not_true] at hp
      unfold foodExists at hp
      rw [List.any_eq_false] at hp
      simpa using hp e he
    · rintro ⟨hN, hall⟩
      refine ⟨hN, ?_⟩
      have hfe : foodExists E f = false := by
        unfold foodExists
        rw [List.any_eq_false]
        intro e he
        simp [hall e he]
      simp [hfe]

/-- Witness for C4 at the spec example: merging foods `[A, B]` with
incoming `[B, C]` yields `[A, B, C]`. -/
theorem c4_merge_union_order_witness :
    mergeFoods [foodNasi, foodTeh] [foodTeh, foodRoti] = [foodNasi, foodTeh, foodRoti] ∧
    (mergeFoods [foodNasi, foodTeh] [foodTeh, foodRoti]).take 2 = [foodNasi, foodTeh] ∧
    (foodRoti ∈ (mergeFoods [foodNasi, foodTeh] [foodTeh, foodRoti]).drop 2 ↔
      (foodRoti ∈ [foodTeh, foodRoti] ∧
        ∀ e ∈ [foodNasi, foodTeh], sameFood e foodRoti = false)) := by
  refine ⟨by decide, ?_, ?_⟩
  · exact (c4_merge_union_order [foodNasi, foodTeh] [foodTeh, foodRoti]).1
  · exact (c4_merge_union_order [foodNasi, foodTeh] [foodTeh, foodRoti]).2.2 foodRoti

/-- Claim C5: the per-date merge is idempotent on the foods list:
merging the same fragment twice yields the same foods list under the
fragment date-key as merging it once. -/
theorem c5_merge_idempotent (L : AiResponse) (d : String) (r : DailyRecord) :
    (getKey (mergeIntake (mergeIntake L d r) d r) d).map DailyRecord.foods
      = (getKey (mergeIntake L d r) d).map DailyRecord.foods := by
  cases h : getKey L d with
  | none =>
    have h1 : mergeIntake L d r = setKey L d r := by
      unfold mergeIntake; rw [h]
    have h2 : getKey (setKey L d r) d = some r := getKey_setKey_self L d r
    have h3 : mergeIntake (setKey L d r) d r
        = setKey (setKey L d r) d ⟨mergeFoods r.foods r.foods, r.summary⟩ := by
      unfold mergeIntake; rw [h2]
    rw [h1, h3, getKey_setKey_self, h2]
    simp [mergeFoods_self]
  | some rc =>
    have h1 : mergeIntake L d r = setKey L d ⟨mergeFoods rc.foods r.foods, r.summary⟩ := by
      unfold mergeIntake; rw [h]
    have h2 : getKey (setKey L d ⟨mergeFoods rc.foods r.foods, r.summary⟩) d
        = some ⟨mergeFoods rc.foods r.foods, r.summary⟩ := getKey_setKey_self L d _
    have h3 : mergeIntake (setKey L d ⟨mergeFoods rc.foods r.foods, r.summary⟩) d r
        = setKey (setKey L d ⟨mergeFoods rc.foods r.foods, r.summary⟩) d
            ⟨mergeFoods (mergeFoods rc.foods r.foods) r.foods, r.summary⟩ := by
      unfold mergeIntake; rw [h2]
    rw [h1, h3, getKey_setKey_self, h2]
    simp [mergeFoods_idem]

/-- Claim C3: extraction tries whole-text parse, then the fenced block
(kept only when its inner content parses), then the unverified brace
span, first success winning; it reports no-JSON-found exactly when the
whole text does not parse, no parsing fenced candidate exists and no
brace span exists; the step-3 candidate is returned whether or not it
parses. -/
theorem c3_extraction_cascade (text : String) :
    (jsonWellFormed text = true → extractJson text = some (text, Stage.fullResponse)) ∧
    (∀ inner, jsonWellFormed text = false → codeBlockInner text = some inner →
        jsonWellFormed inner = true → extractJson text = some (inner, Stage.codeBlock)) ∧
    (∀ s, jsonWellFormed text = false → codeBlockParses text = false →
        braceSpan text = some s → extractJson text = some (s, Stage.jsonExtracted)) ∧
    (extractJson text = none ↔
        jsonWellFormed text = false ∧ codeBlockParses text = false ∧
          braceSpan text = none) := by
  refine ⟨?_, ?_, ?_, ?_⟩
  · intro h
    simp [extractJson, h]
  · intro inner h hcb hwf
    simp [extractJson, h, hcb, hwf]
  · intro s h hcb hb
    unfold codeBlockParses at hcb
    cases hcbi : codeBlockInner text with
    | none => simp [extractJson, h, hcbi, hb]
    | some inner =>
      rw [hcbi] at hcb
      have hcb2 : jsonWellFormed inner = false := hcb
      simp [extractJson, h, hcbi, hcb2, hb]
  · unfold extractJson codeBlockParses
    by_cases hj : jsonWellFormed text = true
    · simp [hj]
    · have hj2 : jsonWellFormed text = false := Bool.eq_false_iff.mpr hj
      cases hcbi : codeBlockInner text with
      | none =>
        cases hb : braceSpan text with
        | none => simp [hj2, hcbi, hb]
        | some s => simp [hj2, hcbi, hb]
      | some inner =>
        cases hwf : jsonWellFormed inner with
        | false =>
          cases hb : braceSpan text with
          | none => simp [hj2, hcbi, hwf, hb]
          | some s => simp [hj2, hcbi, hwf, hb]
        | true => simp [hj2, hcbi, hwf]

/-- Witness for C3: prose around a non-JSON brace span is extracted at
step 3 as an unverified candidate. -/
theorem c3_extraction_cascade_witness :
    extractJson "ate nasi lemak \x7bnot json\x7d bye"
      = some ("\x7bnot json\x7d", Stage.jsonExtracted) :=
  (c3_extraction_cascade "ate nasi lemak \x7bnot json\x7d bye").2.2.1
    "\x7bnot json\x7d" (by rfl) (by rfl) (by rfl)

/-- Claim C6: when the stored blob is corrupt, the intake request keeps
going: the store ends up holding exactly the new validated fragment
(old bytes discarded, nothing merged) and, for a fragment with a
date-key, the request succeeds with the re-summarized fragment. -/
theorem c6_corrupt_recovery (resp : AiResponse) :
    (intakeHandler (some Blob.corrupt) resp).1 = some (Blob.valid resp) ∧
    (∀ d r rest, resp = (d, r) :: rest →
        (intakeHandler (some Blob.corrupt) resp).2
          = Except.ok (setKey resp d ⟨r.foods, recalcSummary r.foods⟩)) := by
  constructor
  · cases resp with
    | nil => rfl
    | cons p rest =>
      have hg : getKey (p :: rest) p.1 = some p.2 := by
        unfold getKey
        rw [List.find?_cons_of_pos (p := fun q : String × DailyRecord => q.1 == p.1) _ (by simp)]
        rfl
      simp [intakeHandler, hg]
  · intro d r rest hresp
    subst hresp
    have hg : getKey ((d, r) :: rest) d = some r := by
      unfold getKey
      rw [List.find?_cons_of_pos (p := fun q : String × DailyRecord => q.1 == d) _ (by simp)]
      rfl
    simp [intakeHandler, hg]

/-- Witness for C6: a corrupt blob plus a concrete one-key fragment
ends with the fragment stored and a successful response. -/
theorem c6_corrupt_recovery_witness :
    (intakeHandler (some Blob.corrupt) c6Fragment).1 = some (Blob.valid c6Fragment) ∧
    (intakeHandler (some Blob.corrupt) c6Fragment).2
      = Except.ok [(dkMay, ⟨[foodTeh], ⟨"50", "2", "10", "5"⟩⟩)] := by
  refine ⟨(c6_corrupt_recovery c6Fragment).1, ?_⟩
  rw [(c6_corrupt_recovery c6Fragment).2 dkMay ⟨[foodTeh], ⟨"50", "2", "10", "5"⟩⟩ [] rfl]
  rfl

/-- Claim C7: a ledger with no date-key in the target UTC month
produces the literal average `"0"` in all four fields (the guard avoids
the division entirely); with a positive day count each average field is
the total divided by the day count, formatted to two decimals. -/
theorem c7_monthly_average (ledger : AiResponse) (y m : Nat) :
    ((∀ p ∈ ledger, inMonth y m p.1 = false) →
        averageSummary ledger y m = ⟨"0", "0", "0", "0"⟩) ∧
    (0 < (monthlyAccum ledger y m).2 →
        averageSummary ledger y m =
          ⟨toFixed2Avg (monthlyAccum ledger y m).1.calories (monthlyAccum ledger y m).2,
           toFixed2Avg (monthlyAccum ledger y m).1.protein (monthlyAccum ledger y m).2,
           toFixed2Avg (monthlyAccum ledger y m).1.carbs (monthlyAccum ledger y m).2,
           toFixed2Avg (monthlyAccum ledger y m).1.fat (monthlyAccum ledger y m).2⟩) := by
  constructor
  · intro h
    unfold averageSummary
    rw [monthlyAccum_no_match ledger y m h]
    rfl
  · intro h
    simp [averageSummary, h]

/-- Witness for C7: a May 2024 ledger queried for June 2024 selects no
days and reports all-zero averages. -/
theorem c7_monthly_average_witness :
    averageSummary c1Ledger 2024 6 = ⟨"0", "0", "0", "0"⟩ :=
  (c7_monthly_average c1Ledger 2024 6).1 (by decide)

/-- Claim C8: deleting an existing date-key removes exactly that key
(other keys read back unchanged); when it was the only key the whole
user entry is deleted; deleting a missing date-key reports not-found
and leaves the store unchanged. -/
theorem c8_delete_by_date (m : AiResponse) (d : String) :
    ((getKey m d).isSome = true →
       ((removeKey m d ≠ [] →
           deleteIntake (some (Blob.valid m)) d
             = (some (Blob.valid (removeKey m d)), DeleteOutcome.success)) ∧
        (removeKey m d = [] →
           deleteIntake (some (Blob.valid m)) d = (none, DeleteOutcome.success)) ∧
        getKey (removeKey m d) d = none ∧
        (∀ k, k ≠ d → getKey (removeKey m d) k = getKey m k))) ∧
    ((getKey m d).isSome = false →
       deleteIntake (some (Blob.valid m)) d
         = (some (Blob.valid m), DeleteOutcome.notFoundDate)) := by
  constructor
  · intro hsome
    obtain ⟨rc, hrc⟩ := Option.isSome_iff_exists.mp hsome
    refine ⟨?_, ?_, getKey_removeKey_self m d, fun k hk => getKey_removeKey_ne m d k hk⟩
    · intro hne
      simp [deleteIntake, hrc, List.length_pos.mpr hne]
    · intro hnil
      simp [deleteIntake, hrc, hnil]
  · intro hnone
    have h0 : getKey m d = none := by
      cases hg : getKey m d with
      | none => rfl
      | some rc => rw [hg] at hnone; simp at hnone
    simp [deleteIntake, h0]

/-- Witness for C8: deleting the first key of a two-key ledger keeps
the other key intact and succeeds. -/
theorem c8_delete_by_date_witness :
    deleteIntake (some (Blob.valid c8Ledger)) dkMay
      = (some (Blob.valid (removeKey c8Ledger dkMay)), DeleteOutcome.success) ∧
    getKey (removeKey c8Ledger dkMay) "2024-05-02T09:00:00.000Z"
      = getKey c8Ledger "2024-05-02T09:00:00.000Z" := by
  have h := (c8_delete_by_date c8Ledger dkMay).1 (by decide)
  exact ⟨h.1 (by decide), h.2.2.2 "2024-05-02T09:00:00.000Z" (by decide)⟩

/-- Claim C9: a timestamp ending in the zero-time suffix classifies as
the weekday label; any other parsed timestamp classifies by its UTC+8
local hour through the interval table of the claim (5-10 Breakfast,
11-13 Lunch, 14-16 Snack, 17-20 Dinner, else Late Night Snack); local
hour 8 gives Breakfast and local hour 12 gives Lunch. -/
theorem c9_meal_classification :
    (∀ s y mo da h, parseIso s = some (y, mo, da, h) →
        strEndsWith s "T00:00:00.000Z" = true →
        getMealType s = "On " ++ weekdayName (dayOfWeek y mo da)) ∧
    (∀ s y mo da h, parseIso s = some (y, mo, da, h) →
        strEndsWith s "T00:00:00.000Z" = false →
        getMealType s = mealTypeSpecLabel ((h + 8) % 24)) ∧
    getMealType "2024-03-04T00:30:00.000Z" = "Breakfast" ∧
    getMealType "2024-03-04T04:00:00.000Z" = "Lunch" ∧
    getMealType "2024-03-04T00:00:00.000Z" = "On Monday" := by
  refine ⟨?_, ?_, by rfl, by rfl, by rfl⟩
  · intro s y mo da h hp he
    simp [getMealType, he, hp]
  · intro s y mo da h hp he
    simp [getMealType, he, hp, mealLabel_eq_spec]

/-- Witness for C9: a concrete zero-time Christmas 2025 stamp gets the
weekday label Thursday. -/
theorem c9_meal_classification_witness :
    getMealType "2025-12-25T00:00:00.000Z" = "On Thursday" := by
  have h := c9_meal_classification.1 "2025-12-25T00:00:00.000Z" 2025 12 25 0 (by rfl) (by rfl)
  rw [h]
  rfl

/-- Claim C1 (amended): the record written back by the merge step
carries the merged foods together with the summary supplied in the
incoming fragment; the re-summarized record is only placed in the
response, so the persisted summary is the supplied one. -/
theorem c1_merge_persists_supplied_summary (m : AiResponse) (d : String) (r rc : DailyRecord)
    (h : getKey m d = some rc) :
    (intakeHandler (some (Blob.valid m)) [(d, r)]).1
      = some (Blob.valid (setKey m d ⟨mergeFoods rc.foods r.foods, r.summary⟩)) ∧
    (intakeHandler (some (Blob.valid m)) [(d, r)]).2
      = Except.ok [(d, ⟨mergeFoods rc.foods r.foods,
                       recalcSummary (mergeFoods rc.foods r.foods)⟩)] ∧
    getKey (setKey m d ⟨mergeFoods rc.foods r.foods, r.summary⟩) d
      = some ⟨mergeFoods rc.foods r.foods, r.summary⟩ := by
  have hg : getKey [(d, r)] d = some r := by
    unfold getKey
    rw [List.find?_cons_of_pos (p := fun q : String × DailyRecord => q.1 == d) _ (by simp)]
    rfl
  have hset : ∀ v : DailyRecord, setKey [(d, r)] d v = [(d, v)] := by
    intro v
    unfold setKey
    rw [if_pos (by simp)]
    simp
  refine ⟨?_, ?_, getKey_setKey_self m d _⟩
  · simp [intakeHandler, hg, mergeIntake, h]
  · simp [intakeHandler, hg, h, hset]

/-- Counterexample for C1: a successful merge intake persists the
incoming fragment summary (50 kcal) next to the merged foods, while
the element-wise sum of the stored foods is 150 kcal; the re-summarized
record only reaches the response. -/
theorem c1_counterexample :
    (intakeHandler (some (Blob.valid c1Ledger)) [(dkMay, c1Incoming)]).2
      = Except.ok [(dkMay, ⟨[foodNasi, foodTeh], ⟨"150", "7", "30", "15"⟩⟩)] ∧
    (intakeHandler (some (Blob.valid c1Ledger)) [(dkMay, c1Incoming)]).1
      = some (Blob.valid [(dkMay, ⟨[foodNasi, foodTeh], ⟨"50", "2", "10", "5"⟩⟩)]) ∧
    recalcSummary [foodNasi, foodTeh] = ⟨"150", "7", "30", "15"⟩ ∧
    (⟨"50", "2", "10", "5"⟩ : Summary) ≠ ⟨"150", "7", "30", "15"⟩ := by
  refine ⟨by rfl, by rfl, by rfl, by decide⟩

/-- Witness for C1 (amended) at the concrete merge instance. -/
theorem c1_merge_persists_supplied_summary_witness :
    (intakeHandler (some (Blob.valid c1Ledger)) [(dkMay, c1Incoming)]).1
      = some (Blob.valid (setKey c1Ledger dkMay
          ⟨mergeFoods [foodNasi] c1Incoming.foods, c1Incoming.summary⟩)) :=
  (c1_merge_persists_supplied_summary c1Ledger dkMay c1Incoming
      ⟨[foodNasi], ⟨"100", "5", "20", "10"⟩⟩ (by rfl)).1

/-- Claim C2 (amended): the record schema accepts the empty object, and
the intake pipeline then fails at the summary-recalculation step with a
runtime type error rather than a schema-validation failure. -/
theorem c2_empty_fragment (ex : Option Blob) :
    aiResponseSchemaParse (Json.obj []) = Except.ok [] ∧
    (intakeHandler ex []).2 = Except.error "TypeError: cannot read foods of undefined" := by
  refine ⟨rfl, ?_⟩
  cases ex with
  | none => rfl
  | some b =>
    cases b with
    | corrupt => rfl
    | valid m => rfl

/-- Counterexample for C2: schema validation of the empty object
succeeds with the empty record, instead of failing. -/
theorem c2_counterexample :
    aiResponseSchemaParse (Json.obj []) = Except.ok [] := rfl

/-- Witness for C2 (amended), instantiated at an absent store entry. -/
theorem c2_empty_fragment_witness :
    aiResponseSchemaParse (Json.obj []) = Except.ok [] ∧
    (intakeHandler none []).2 = Except.error "TypeError: cannot read foods of undefined" :=
  c2_empty_fragment none

/-- Claim C10 (amended): with a multi-key validated fragment, only the
first date-key is merged and re-summarized; with a parseable existing
ledger the persisted value is the existing ledger updated at that first
key only (other keys of the store untouched, the fragment rest keys
dropped); with no ledger the whole fragment is persisted verbatim; the
response is the whole fragment with the first record replaced. -/
theorem c10_first_key_processed (m : AiResponse) (d1 : String) (r1 : DailyRecord)
    (rest : AiResponse) :
    (intakeHandler (some (Blob.valid m)) ((d1, r1) :: rest)).1
      = some (Blob.valid (mergeIntake m d1 r1)) ∧
    (∀ k, k ≠ d1 → getKey (mergeIntake m d1 r1) k = getKey m k) ∧
    (intakeHandler none ((d1, r1) :: rest)).1
      = some (Blob.valid ((d1, r1) :: rest)) ∧
    (∃ fs, (intakeHandler (some (Blob.valid m)) ((d1, r1) :: rest)).2
        = Except.ok (setKey ((d1, r1) :: rest) d1 ⟨fs, recalcSummary fs⟩)) := by
  have hg : getKey ((d1, r1) :: rest) d1 = some r1 := by
    unfold getKey
    rw [List.find?_cons_of_pos (p := fun q : String × DailyRecord => q.1 == d1) _ (by simp)]
    rfl
  refine ⟨?_, ?_, ?_, ?_⟩
  · simp [intakeHandler, hg]
  · intro k hk
    unfold mergeIntake
    cases h : getKey m d1 with
    | none => exact getKey_setKey_ne m d1 _ k hk
    | some rc => exact getKey_setKey_ne m d1 _ k hk
  · simp [intakeHandler, hg]
  · cases h : getKey m d1 with
    | none => exact ⟨r1.foods, by simp [intakeHandler, hg, h]⟩
    | some rc => exact ⟨mergeFoods rc.foods r1.foods, by simp [intakeHandler, hg, h]⟩

/-- Counterexample for C10: the response of a two-key intake retains
both date-keys (the second unchanged), refuting that only the first
date-key is returned. -/
theorem c10_counterexample :
    (intakeHandler none c10resp).2 = Except.ok c10respOut ∧
    c10respOut.length = 2 ∧
    getKey c10respOut c10dB = some c10rB := by
  refine ⟨by rfl, by rfl, by rfl⟩

/-- Witness for C10 (amended): with an existing one-key ledger and a
two-key fragment, the store receives the merge of the first key only
and the second fragment key reads back as it did before. -/
theorem c10_first_key_processed_witness :
    (intakeHandler (some (Blob.valid c1Ledger)) c10resp).1
      = some (Blob.valid (mergeIntake c1Ledger c10dA c10rA)) ∧
    getKey (mergeIntake c1Ledger c10dA c10rA) c10dB = getKey c1Ledger c10dB := by
  have h := c10_first_key_processed c1Ledger c10dA c10rA [(c10dB, c10rB)]
  exact ⟨h.1, h.2.1 c10dB (by decide)⟩

end CaloriesTracker
